import Mathlib

/-!
Verification of the coordination mechanisms of the `EditorUI` module
(`src/ui/editor.ts`): the reference-counted spinner, the progress overlay
state, the modal dialog flows (publish / video export), the per-frame
annotation projection, and the viewer-only construction branch.

The embedding follows the TypeScript source. JavaScript strings are Lean
`String`s; JavaScript numbers that matter here are exact (`Int` for the
spinner count, `ℚ` for screen coordinates and progress values); nullable /
optional values are `Option`; thrown errors are `Except`. Dialog flows are
embedded as functions from the outcomes of their external collaborators
(dialog resolution, picker result, render result) to the list of bus
invocations they perform, so that "X is never invoked" is a statement about
that list.
-/

/-! ## Spinner (editor.ts lines 460-478)

`spinnerCount` starts at 0, `startSpinner` increments and shows the spinner
when the new count is 1, `stopSpinner` sets the count to
`Math.max(0, spinnerCount - 1)` and hides the spinner when the new count
is 0. The spinner widget starts hidden.
-/

inductive SpinnerEvent
  | start
  | stop
deriving DecidableEq, Repr

structure SpinnerState where
  count : Int
  hidden : Bool
deriving DecidableEq, Repr

def initSpinner : SpinnerState := { count := 0, hidden := true }

def spinnerStep (s : SpinnerState) : SpinnerEvent → SpinnerState
  | SpinnerEvent.start =>
    { count := s.count + 1, hidden := if s.count + 1 = 1 then false else s.hidden }
  | SpinnerEvent.stop =>
    { count := max 0 (s.count - 1),
      hidden := if max 0 (s.count - 1) = 0 then true else s.hidden }

def runSpinner (es : List SpinnerEvent) : SpinnerState :=
  es.foldl spinnerStep initSpinner

/-- Number of `startSpinner` events in a sequence. -/
def starts : List SpinnerEvent → Int
  | [] => 0
  | SpinnerEvent.start :: es => starts es + 1
  | SpinnerEvent.stop :: es => starts es

/-- Number of `stopSpinner` events in a sequence. -/
def stops : List SpinnerEvent → Int
  | [] => 0
  | SpinnerEvent.start :: es => stops es
  | SpinnerEvent.stop :: es => stops es + 1

/-- The spinner state invariant: the count is non-negative and the spinner
is visible (not hidden) exactly when the count is positive. -/
def SpinnerInv (s : SpinnerState) : Prop :=
  0 ≤ s.count ∧ (s.hidden = false ↔ 0 < s.count)

/-! ## Progress overlay (editor.ts lines 480-502)

The handlers delegate to the `Progress` widget. Its source
(`src/ui/progress.ts`) is not part of this repository snapshot, so the
widget's setters are modelled from the spec (section 4.2). -/

structure ProgressState where
  hidden : Bool
  header : String
  text : String
  value : ℚ
deriving DecidableEq, Repr

def defaultProgressText : String := ""

def defaultProgressValue : ℚ := 0

/-- Modelled from the spec: the `Progress` widget (`src/ui/progress.ts`) is
missing from the snapshot. Per spec section 4.2, `progressStart(header)`
"sets header, resets text/value to defaults", and the editor handler only
calls `setHeader`, so `setHeader` sets the header and resets the stored
text and value to their defaults. -/
def ProgressState.setHeader (p : ProgressState) (h : String) : ProgressState :=
  { p with header := h, text := defaultProgressText, value := defaultProgressValue }

/-- Modelled from the spec: `setText` stores the given text and touches
nothing else (`src/ui/progress.ts` is missing from the snapshot). -/
def ProgressState.setText (p : ProgressState) (t : String) : ProgressState :=
  { p with text := t }

/-- Modelled from the spec: "`v` is always clamped/asserted within [0,1]"
(`src/ui/progress.ts` is missing from the snapshot), so `setProgress`
stores the value clamped into the unit interval. -/
def ProgressState.setProgress (p : ProgressState) (v : ℚ) : ProgressState :=
  { p with value := max 0 (min 1 v) }

inductive ProgressEvent
  | start (header : String)
  | update (text : Option String) (progress : Option ℚ)
  | finish

/-- One bus event applied to the progress state, following the three
handlers registered in the editor constructor. -/
def progressStep (p : ProgressState) : ProgressEvent → ProgressState
  | ProgressEvent.start header => ({ p with hidden := false }).setHeader header
  | ProgressEvent.update text progress =>
    let p1 := match text with
      | some t => p.setText t
      | none => p
    match progress with
      | some v => p1.setProgress v
      | none => p1
  | ProgressEvent.finish => { p with hidden := true }

def initProgress : ProgressState :=
  { hidden := true, header := "", text := defaultProgressText, value := defaultProgressValue }

def runProgress (es : List ProgressEvent) : ProgressState :=
  es.foldl progressStep initProgress

/-! ## Annotation projection (editor.ts lines 219-265, `updateNote`) -/

structure Vec3Q where
  x : ℚ
  y : ℚ
  z : ℚ
deriving DecidableEq, Repr

/-- `VIEWER_NOTE.position`: the fixed world-space anchor of the annotation. -/
def noteWorld : Vec3Q :=
  { x := 3.3191983272917707, y := 3.0731552014743144, z := -76.79501217896394 }

def viewerNoteLabel : String := "Wooden window frame"

/-- Bounding rectangle of the canvas as returned by
`canvas.getBoundingClientRect()`. -/
structure Rect where
  left : ℚ
  top : ℚ
  width : ℚ
  height : ℚ
deriving DecidableEq, Repr

/-- The `inside` test of `updateNote`: depth and both normalized axes lie
in the unit interval. -/
def insideUnitBox (s : Vec3Q) : Prop :=
  0 ≤ s.z ∧ s.z ≤ 1 ∧ 0 ≤ s.x ∧ s.x ≤ 1 ∧ 0 ≤ s.y ∧ s.y ≤ 1

instance (s : Vec3Q) : Decidable (insideUnitBox s) := by
  unfold insideUnitBox; infer_instance

/-- `updateNote`: `camera` is the optional world-to-screen projection
(`scene?.camera?.worldToScreen`, `none` when the chain is nullish). The
result is `none` when the note is hidden (`display: none`) and
`some (left, top)` with the computed pixel position when it is shown
(`display: flex`). -/
def updateNote (camera : Option (Vec3Q → Vec3Q)) (rect : Rect) : Option (ℚ × ℚ) :=
  match camera with
  | none => none
  | some worldToScreen =>
    let noteScreen := worldToScreen noteWorld
    if insideUnitBox noteScreen then
      some (rect.left + noteScreen.x * rect.width, rect.top + noteScreen.y * rect.height)
    else
      none

/-! ## Dialog flows (editor.ts lines 342-458)

The flows are embedded as functions from the outcomes of their external
collaborators to the list of bus invocations performed, in order. -/

structure VideoSettings where
  format : String
  codec : String
deriving DecidableEq, Repr

/-- A thrown JavaScript value, as inspected by the video-flow catch block:
whether it is a `DOMException`, its `name`, its nullable `message`, and its
string form (used when `message` is nullish). -/
structure JsError where
  isDOMException : Bool
  name : String
  message : Option String
  str : String
deriving DecidableEq, Repr

/-- The `error instanceof DOMException && error.name === 'AbortError'` test. -/
def isAbortError (e : JsError) : Bool :=
  e.isDOMException && e.name == "AbortError"

/-- Bus invocations performed by the dialog flows. -/
inductive BusAction
  | invokeDocName
  | renderVideo (settings : VideoSettings) (hasWritable : Bool)
  | invokeUserStatus
  | showPublishDialog (userStatus : String)
  | scenePublish (settings : String)
  | showPopup (ptype : String) (header : String) (message : String)
deriving DecidableEq, Repr

/-- The `showPopup` invocations of a trace, in order, as
(type, header, message) triples. -/
def popups : List BusAction → List (String × String × String)
  | [] => []
  | BusAction.showPopup t h m :: rest => (t, h, m) :: popups rest
  | _ :: rest => popups rest

/-- Modelled from the spec: `localize` (`src/ui/localization.ts`) is
missing from the snapshot and localization string resolution is explicitly
out of scope, so a localization key resolves to itself. -/
def localize (key : String) : String := key

/-- Codec display-name table of the video flow. -/
def codecNames : List (String × String) :=
  [("h264", "H.264"), ("h265", "H.265"), ("vp9", "VP9"), ("av1", "AV1")]

/-- `codecNames[videoSettings.codec] || videoSettings.codec.toUpperCase()`. -/
def codecDisplayName (codec : String) : String :=
  match codecNames.lookup codec with
  | some n => n
  | none => codec.toUpper

/-- One entry of the `filePickerTypes` array built by the video flow. -/
structure FilePickerType where
  description : String
  acceptMime : String
  acceptExtensions : List String
deriving DecidableEq, Repr

/-- The format branch of the video flow: the derived file extension and the
file-picker type (with its MIME key) for a requested container format. -/
def videoFormatInfo (format : String) (codecName : String) : String × FilePickerType :=
  if format == "webm" then
    (".webm", { description := "WebM Video (" ++ codecName ++ ")"
                acceptMime := "video/webm", acceptExtensions := [".webm"] })
  else if format == "mov" then
    (".mov", { description := "MOV Video (" ++ codecName ++ ")"
               acceptMime := "video/quicktime", acceptExtensions := [".mov"] })
  else if format == "mkv" then
    (".mkv", { description := "MKV Video (" ++ codecName ++ ")"
               acceptMime := "video/x-matroska", acceptExtensions := [".mkv"] })
  else
    (".mp4", { description := "MP4 Video (" ++ codecName ++ ")"
               acceptMime := "video/mp4", acceptExtensions := [".mp4"] })

/-- JavaScript `String.prototype.split` with a single-character separator,
on the character list of the string. -/
def splitOnChar (sep : Char) : List Char → List (List Char)
  | [] => [[]]
  | c :: cs =>
    match splitOnChar sep cs with
    | [] => [[c]]
    | r :: rs => if c = sep then [] :: r :: rs else (c :: r) :: rs

/-- Modelled from the playcanvas `path.getExtension` helper (an external
dependency used by `removeExtension`): take the last `.`-separated piece of
the path up to any `?`; if it differs from the whole path, prefix it with
`.`, otherwise return the empty string. -/
def getExtension (p : String) : String :=
  let ext := (splitOnChar '.' ((splitOnChar '?' p.data).headD [])).getLastD []
  if ext = p.data then "" else "." ++ String.mk ext

/-- `removeExtension` (editor.ts lines 55-57):
`filename.substring(0, filename.length - path.getExtension(filename).length)`. -/
def removeExtension (filename : String) : String :=
  String.mk (filename.data.take (filename.data.length - (getExtension filename).data.length))

/-- The suggested filename of the video flow (editor.ts line 422):
the document name (defaulting to `supersplat`) with its extension stripped,
followed by the derived extension. -/
def videoSuggestedName (format : String) (codec : String) (docName : Option String) : String :=
  removeExtension (docName.getD "supersplat") ++ (videoFormatInfo format (codecDisplayName codec)).1

/-- Outcomes of the external collaborators of one run of the
`show.videoSettingsDialog` flow. -/
structure VideoEnv where
  videoSettings : Option VideoSettings
  docName : Option String
  hasSaveFilePicker : Bool
  pickerResult : Except JsError Unit
  renderResult : Except JsError Unit

/-- The catch block of the video flow: an `AbortError` from a `DOMException`
is swallowed silently; any other error produces one error popup whose
message wraps `error.message ?? error` in single quotes. -/
def videoFlowCatch (e : JsError) : List BusAction :=
  if isAbortError e then []
  else [BusAction.showPopup "error" "Failed to render video"
        ("\x27" ++ (e.message.getD e.str) ++ "\x27")]

/-- The `show.videoSettingsDialog` flow as the trace of bus invocations it
performs: nothing when the dialog resolved without settings; otherwise
`doc.name` is invoked, then the save-file picker runs when available (its
failure goes to the catch block), then `render.video` is invoked with the
settings and a writable exactly when the picker ran, a failure again going
to the catch block. -/
def videoFlow (env : VideoEnv) : List BusAction :=
  match env.videoSettings with
  | none => []
  | some vs =>
    BusAction.invokeDocName ::
    (if env.hasSaveFilePicker then
      match env.pickerResult with
      | Except.error e => videoFlowCatch e
      | Except.ok _ =>
        match env.renderResult with
        | Except.error e => BusAction.renderVideo vs true :: videoFlowCatch e
        | Except.ok _ => [BusAction.renderVideo vs true]
    else
      match env.renderResult with
      | Except.error e => BusAction.renderVideo vs false :: videoFlowCatch e
      | Except.ok _ => [BusAction.renderVideo vs false])

/-- The `show.publishSettingsDialog` flow: the trace of bus invocations and
the flow's result (`some false` for the explicit `return false`, `none` for
the implicit `undefined`). `userStatus` is `none` when the external
`publish.userStatus` query resolved falsy; `dialogResult` is the resolution
of the settings dialog for this run. -/
def publishFlow (userStatus : Option String) (dialogResult : Option String) :
    List BusAction × Option Bool :=
  match userStatus with
  | none =>
    ([BusAction.invokeUserStatus,
      BusAction.showPopup "error" (localize "popup.error")
        (localize "popup.publish.please-log-in")],
     some false)
  | some us =>
    match dialogResult with
    | some ps =>
      ([BusAction.invokeUserStatus, BusAction.showPublishDialog us,
        BusAction.scenePublish ps], none)
    | none =>
      ([BusAction.invokeUserStatus, BusAction.showPublishDialog us], none)

/-- A JavaScript-falsy flow result (`undefined` or `false`). -/
def jsFalsy (r : Option Bool) : Prop :=
  r = none ∨ r = some false

/-! ## Construction (editor.ts lines 67-335) -/

structure EditorUIOptions where
  viewerOnly : Option Bool
deriving DecidableEq, Repr

/-- Which conditional parts of the UI the constructor creates. -/
structure EditorComponents where
  scenePanel : Bool
  viewPanel : Bool
  colorPanel : Bool
  bottomToolbar : Bool
  modeToggle : Bool
  menu : Bool
  cameraPresetButtons : List String
  noteCreated : Bool
  notePrerenderSubscribed : Bool
  noteResizeSubscribed : Bool
  timelinePanel : Bool
  dataPanel : Bool
  shortcutsPopup : Bool
deriving DecidableEq, Repr

def noComponents : EditorComponents :=
  { scenePanel := false, viewPanel := false, colorPanel := false
    bottomToolbar := false, modeToggle := false, menu := false
    cameraPresetButtons := [], noteCreated := false
    notePrerenderSubscribed := false, noteResizeSubscribed := false
    timelinePanel := false, dataPanel := false, shortcutsPopup := false }

/-- The three `viewerOnly` branch sites of the constructor, in order:
the panel/preset branch (lines 152-266), the timeline/data branch
(lines 281-286), and the shortcuts branch (lines 316-319).
`viewerOnly` is `options.viewerOnly ?? false`. -/
def buildEditorUI (options : EditorUIOptions) : EditorComponents :=
  let viewerOnly := options.viewerOnly.getD false
  let c1 :=
    if !viewerOnly then
      { noComponents with
        scenePanel := true, viewPanel := true, colorPanel := true
        bottomToolbar := true, modeToggle := true, menu := true }
    else
      { noComponents with
        cameraPresetButtons := ["Image 1", "Image 2", "Image 3"]
        noteCreated := true, notePrerenderSubscribed := true
        noteResizeSubscribed := true }
  let c2 :=
    if !viewerOnly then { c1 with timelinePanel := true, dataPanel := true } else c1
  if !viewerOnly then { c2 with shortcutsPopup := true } else c2

/-! ## Theorems -/

theorem starts_append (xs ys : List SpinnerEvent) :
    starts (xs ++ ys) = starts xs + starts ys := by
  induction xs with
  | nil => simp [starts]
  | cons e xs ih =>
    cases e with
    | start => simp [starts, ih]; ring
    | stop => simp [starts, ih]

theorem stops_append (xs ys : List SpinnerEvent) :
    stops (xs ++ ys) = stops xs + stops ys := by
  induction xs with
  | nil => simp [stops]
  | cons e xs ih =>
    cases e with
    | start => simp [stops, ih]
    | stop => simp [stops, ih]; ring

theorem runSpinner_append_singleton (es : List SpinnerEvent) (e : SpinnerEvent) :
    runSpinner (es ++ [e]) = spinnerStep (runSpinner es) e := by
  simp [runSpinner, List.foldl_append]

theorem spinner_count_aux (es : List SpinnerEvent)
    (h : ∀ p ∈ es.inits, stops p ≤ starts p) :
    (runSpinner es).count = starts es - stops es := by
  induction es using List.reverseRecOn with
  | nil => rfl
  | append_singleton es e ih =>
    have hes : ∀ p ∈ es.inits, stops p ≤ starts p := by
      intro p hp
      exact h p ((List.mem_inits p (es ++ [e])).2
        (((List.mem_inits p es).1 hp).trans (List.prefix_append es [e])))
    have hcount := ih hes
    have hfull : stops (es ++ [e]) ≤ starts (es ++ [e]) :=
      h (es ++ [e]) ((List.mem_inits _ _).2 (List.prefix_refl _))
    rw [runSpinner_append_singleton]
    cases e with
    | start =>
      simp only [spinnerStep, starts_append, stops_append, starts, stops] at *
      omega
    | stop =>
      simp only [spinnerStep, starts_append, stops_append, starts, stops] at *
      omega

theorem spinnerStep_inv (s : SpinnerState) (e : SpinnerEvent) (h : SpinnerInv s) :
    SpinnerInv (spinnerStep s e) := by
  obtain ⟨h0, hv⟩ := h
  cases e with
  | start =>
    refine ⟨by simp [spinnerStep]; omega, ?_⟩
    simp only [spinnerStep]
    split
    · exact ⟨fun _ => by omega, fun _ => rfl⟩
    · rw [hv]; omega
  | stop =>
    refine ⟨by simp [spinnerStep], ?_⟩
    simp only [spinnerStep]
    split
    · rename_i hz
      rw [hz]
      simp
    · rename_i hz
      rw [hv]; omega

theorem spinner_inv_run (es : List SpinnerEvent) : SpinnerInv (runSpinner es) := by
  have step : ∀ (l : List SpinnerEvent) (s : SpinnerState),
      SpinnerInv s → SpinnerInv (l.foldl spinnerStep s) := by
    intro l
    induction l with
    | nil => intro s h; exact h
    | cons e l ih => intro s h; exact ih _ (spinnerStep_inv s e h)
  refine step es initSpinner ⟨by simp [initSpinner], ?_⟩
  simp [initSpinner]

/-- C1 (counterexample): the claimed formula `count = max(0, starts − stops)`
fails on the sequence [stopSpinner, startSpinner]: the clamped decrement
forgets the deficit, so the final count is 1 while the formula gives 0. -/
theorem spinner_claim_counterexample :
    (runSpinner [SpinnerEvent.stop, SpinnerEvent.start]).count ≠
      max 0 (starts [SpinnerEvent.stop, SpinnerEvent.start] -
             stops [SpinnerEvent.stop, SpinnerEvent.start]) := by
  decide

/-- C1 (amended): for every sequence of startSpinner/stopSpinner events
processed from the initial state, if every prefix of the sequence contains
at least as many startSpinner as stopSpinner events then the final count
equals max(0, starts − stops); and after any sequence whatsoever the
spinner is visible iff the count is greater than 0. -/
theorem spinner_clamped_count_visibility (es : List SpinnerEvent) :
    ((∀ p ∈ es.inits, stops p ≤ starts p) →
      (runSpinner es).count = max 0 (starts es - stops es)) ∧
    ((runSpinner es).hidden = false ↔ 0 < (runSpinner es).count) := by
  constructor
  · intro h
    have hc := spinner_count_aux es h
    have hfull : stops es ≤ starts es :=
      h es ((List.mem_inits _ _).2 (List.prefix_refl _))
    omega
  · exact (spinner_inv_run es).2

/-- C1 (witness): the amended theorem applied to the concrete balanced
sequence [start, start, stop]. -/
theorem spinner_clamped_count_visibility_witness :
    (runSpinner [SpinnerEvent.start, SpinnerEvent.start, SpinnerEvent.stop]).count =
      max 0 (starts [SpinnerEvent.start, SpinnerEvent.start, SpinnerEvent.stop] -
             stops [SpinnerEvent.start, SpinnerEvent.start, SpinnerEvent.stop]) :=
  (spinner_clamped_count_visibility
    [SpinnerEvent.start, SpinnerEvent.start, SpinnerEvent.stop]).1 (by decide)

/-- C2: on every run of the annotation update (fired on each prerender tick
and on each viewport resize), the overlay is hidden when the camera
capability is absent; when present it is visible iff the projected point
lies in the unit screen box (depth and both axes in [0,1]); a depth of 3/2
hides it regardless of x/y; and when inside, the overlay is placed at the
pixel position computed from the canvas bounding rectangle. -/
theorem updateNote_visibility (camera : Option (Vec3Q → Vec3Q)) (rect : Rect) :
    (camera = none → updateNote camera rect = none) ∧
    (∀ w2s, camera = some w2s →
      ((¬ insideUnitBox (w2s noteWorld)) → updateNote camera rect = none) ∧
      ((w2s noteWorld).z = 3/2 → updateNote camera rect = none) ∧
      (insideUnitBox (w2s noteWorld) →
        updateNote camera rect =
          some (rect.left + (w2s noteWorld).x * rect.width,
                rect.top + (w2s noteWorld).y * rect.height))) := by
  constructor
  · intro h; subst h; rfl
  · intro w2s h
    subst h
    refine ⟨?_, ?_, ?_⟩
    · intro hout
      simp [updateNote, hout]
    · intro hz
      have hout : ¬ insideUnitBox (w2s noteWorld) := by
        intro hin
        have hle := hin.2.1
        rw [hz] at hle
        norm_num at hle
      simp [updateNote, hout]
    · intro hin
      simp [updateNote, hin]

/-- C2 (witness): a camera that projects the anchor to depth 3/2 hides the
overlay. -/
theorem updateNote_visibility_witness :
    updateNote (some (fun _ => ({ x := 1/2, y := 1/2, z := 3/2 } : Vec3Q)))
      { left := 0, top := 0, width := 640, height := 480 } = none :=
  ((updateNote_visibility _ _).2 _ rfl).2.1 rfl

/-- C3: in the video-export flow, a destination-picker cancellation (a
`DOMException` named `AbortError`) terminates the flow with no error
notification, while any non-abort error thrown during the flow (by the
picker or by the render invocation) produces exactly one error
notification with the fixed header and the error's message or string
form. -/
theorem videoFlow_cancel_silent (env : VideoEnv) :
    (∀ e, env.hasSaveFilePicker = true → env.pickerResult = Except.error e →
      isAbortError e = true → popups (videoFlow env) = []) ∧
    (∀ vs e, env.videoSettings = some vs → isAbortError e = false →
      ((env.hasSaveFilePicker = true ∧ env.pickerResult = Except.error e) ∨
       (env.renderResult = Except.error e ∧
        (env.hasSaveFilePicker = true → env.pickerResult = Except.ok ()))) →
      popups (videoFlow env) =
        [("error", "Failed to render video",
          "\x27" ++ (e.message.getD e.str) ++ "\x27")]) := by
  obtain ⟨vso, dn, hp, pr, rr⟩ := env
  constructor
  · intro e hhp hpr habort
    subst hhp
    cases vso with
    | none => rfl
    | some vs =>
      subst hpr
      simp [videoFlow, videoFlowCatch, habort, popups]
  · intro vs e hvs habort hcase
    subst hvs
    rcases hcase with ⟨hhp, hpr⟩ | ⟨hrr, hok⟩
    · subst hhp
      subst hpr
      simp [videoFlow, videoFlowCatch, habort, popups]
    · subst hrr
      cases hp with
      | false =>
        simp [videoFlow, videoFlowCatch, habort, popups]
      | true =>
        have hpr := hok rfl
        subst hpr
        simp [videoFlow, videoFlowCatch, habort, popups]

/-- C3 (witness): a picker cancellation on a concrete environment produces
no popup. -/
theorem videoFlow_cancel_silent_witness :
    popups (videoFlow
      { videoSettings := some { format := "mp4", codec := "h264" }
        docName := some "scene.ply"
        hasSaveFilePicker := true
        pickerResult := Except.error
          { isDOMException := true, name := "AbortError", message := none, str := "AbortError" }
        renderResult := Except.ok () }) = [] :=
  (videoFlow_cancel_silent _).1
    { isDOMException := true, name := "AbortError", message := none, str := "AbortError" }
    rfl rfl (by decide)

/-- C4: in the publish flow, a falsy `publish.userStatus` result produces
exactly the please-log-in error notification, never shows the settings
dialog, never invokes `scene.publish`, and resolves falsy; a truthy user
status whose settings dialog resolves with settings leads to
`scene.publish` being invoked with exactly that payload. -/
theorem publishFlow_auth_gate (userStatus dialogResult : Option String) :
    (userStatus = none →
      popups (publishFlow userStatus dialogResult).1 =
        [("error", localize "popup.error", localize "popup.publish.please-log-in")] ∧
      (∀ us, BusAction.showPublishDialog us ∉ (publishFlow userStatus dialogResult).1) ∧
      (∀ ps, BusAction.scenePublish ps ∉ (publishFlow userStatus dialogResult).1) ∧
      jsFalsy (publishFlow userStatus dialogResult).2) ∧
    (∀ us ps, userStatus = some us → dialogResult = some ps →
      (publishFlow userStatus dialogResult).1 =
        [BusAction.invokeUserStatus, BusAction.showPublishDialog us,
         BusAction.scenePublish ps]) := by
  constructor
  · intro h
    subst h
    refine ⟨rfl, ?_, ?_, Or.inr rfl⟩
    · intro us hmem
      simp [publishFlow] at hmem
    · intro ps hmem
      simp [publishFlow] at hmem
  · intro us ps h1 h2
    subst h1
    subst h2
    rfl

/-- C4 (witness): the unauthenticated branch on a concrete input fires the
please-log-in popup. -/
theorem publishFlow_auth_gate_witness :
    popups (publishFlow none (some "settings")).1 =
      [("error", localize "popup.error", localize "popup.publish.please-log-in")] :=
  ((publishFlow_auth_gate none (some "settings")).1 rfl).1

/-- C5: every progressStart(header) event makes the overlay visible, sets
the header to the given string, and resets the stored text and value to
their defaults. -/
theorem progressStart_resets (p : ProgressState) (header : String) :
    progressStep p (ProgressEvent.start header) =
      { hidden := false, header := header
        text := defaultProgressText, value := defaultProgressValue } := rfl

/-- C6: a progressUpdate event updates only the fields present in its
options: the header (and visibility) are never touched, an omitted text
field keeps the prior text, and an omitted value field keeps the prior
value. -/
theorem progressUpdate_only_present (p : ProgressState) (text : Option String) (value : Option ℚ) :
    ((progressStep p (ProgressEvent.update text value)).header = p.header) ∧
    ((progressStep p (ProgressEvent.update text value)).hidden = p.hidden) ∧
    (text = none → (progressStep p (ProgressEvent.update text value)).text = p.text) ∧
    (value = none → (progressStep p (ProgressEvent.update text value)).value = p.value) := by
  cases text <;> cases value <;>
    simp [progressStep, ProgressState.setText, ProgressState.setProgress]

/-- C6 (witness): an update carrying only a value leaves the stored text
unchanged on a concrete state. -/
theorem progressUpdate_only_present_witness :
    (progressStep initProgress (ProgressEvent.update none (some (1/2)))).text =
      initProgress.text :=
  (progressUpdate_only_present initProgress none (some (1/2))).2.2.1 rfl

/-- C7: the stored progress value always lies in [0,1]: after any sequence
of progress events from the initial state the value is in [0,1], and every
progressUpdate carrying a value stores it clamped into [0,1]. -/
theorem progressValue_unit_interval (es : List ProgressEvent) :
    (0 ≤ (runProgress es).value ∧ (runProgress es).value ≤ 1) ∧
    (∀ p t v, (progressStep p (ProgressEvent.update t (some v))).value =
      max 0 (min 1 v)) := by
  constructor
  · have step : ∀ (l : List ProgressEvent) (p : ProgressState),
        0 ≤ p.value ∧ p.value ≤ 1 →
        0 ≤ (l.foldl progressStep p).value ∧ (l.foldl progressStep p).value ≤ 1 := by
      intro l
      induction l with
      | nil => intro p h; exact h
      | cons e l ih =>
        intro p h
        refine ih _ ?_
        cases e with
        | start header =>
          constructor
          · simp [progressStep, ProgressState.setHeader, defaultProgressValue]
          · simp [progressStep, ProgressState.setHeader, defaultProgressValue]
        | update t v =>
          cases v with
          | none =>
            cases t with
            | none => simpa [progressStep] using h
            | some s => simpa [progressStep, ProgressState.setText] using h
          | some v =>
            cases t with
            | none =>
              simp [progressStep, ProgressState.setProgress]
            | some s =>
              simp [progressStep, ProgressState.setText, ProgressState.setProgress]
        | finish => simpa [progressStep] using h
    refine step es initProgress ?_
    constructor
    · simp [initProgress, defaultProgressValue]
    · simp [initProgress, defaultProgressValue]
  · intro p t v
    cases t <;> simp [progressStep, ProgressState.setText, ProgressState.setProgress]

/-- C8: the video-export flow derives the output extension and MIME
descriptor exactly per the fixed table (webm, mov, mkv), with .mp4 /
video/mp4 for any other format string. -/
theorem videoFormatInfo_table (codecName : String) :
    videoFormatInfo "webm" codecName =
      (".webm", { description := "WebM Video (" ++ codecName ++ ")"
                  acceptMime := "video/webm", acceptExtensions := [".webm"] }) ∧
    videoFormatInfo "mov" codecName =
      (".mov", { description := "MOV Video (" ++ codecName ++ ")"
                 acceptMime := "video/quicktime", acceptExtensions := [".mov"] }) ∧
    videoFormatInfo "mkv" codecName =
      (".mkv", { description := "MKV Video (" ++ codecName ++ ")"
                 acceptMime := "video/x-matroska", acceptExtensions := [".mkv"] }) ∧
    (∀ format, format ≠ "webm" → format ≠ "mov" → format ≠ "mkv" →
      videoFormatInfo format codecName =
        (".mp4", { description := "MP4 Video (" ++ codecName ++ ")"
                   acceptMime := "video/mp4", acceptExtensions := [".mp4"] })) := by
  refine ⟨?_, ?_, ?_, ?_⟩
  · simp [videoFormatInfo]
  · simp [videoFormatInfo]
  · simp [videoFormatInfo]
  · intro format h1 h2 h3
    simp [videoFormatInfo, h1, h2, h3]

/-- C8 (witness): an unrecognized format falls back to .mp4 / video/mp4. -/
theorem videoFormatInfo_table_witness :
    videoFormatInfo "avi" "H.264" =
      (".mp4", { description := "MP4 Video (H.264)"
                 acceptMime := "video/mp4", acceptExtensions := [".mp4"] }) :=
  (videoFormatInfo_table "H.264").2.2.2 "avi" (by decide) (by decide) (by decide)

/-- C9: the suggested filename is the current document name with its
extension stripped plus the derived extension; for format mkv, codec h265
and document name "scene.ply" it is "scene.mkv", the MIME is
video/x-matroska, and the codec label is "H.265". -/
theorem videoSuggestedName_spec :
    (∀ format codec docName, videoSuggestedName format codec (some docName) =
      removeExtension docName ++ (videoFormatInfo format (codecDisplayName codec)).1) ∧
    removeExtension "scene.ply" = "scene" ∧
    videoSuggestedName "mkv" "h265" (some "scene.ply") = "scene.mkv" ∧
    (videoFormatInfo "mkv" (codecDisplayName "h265")).2.acceptMime = "video/x-matroska" ∧
    codecDisplayName "h265" = "H.265" := by
  refine ⟨fun format codec docName => rfl, ?_, ?_, ?_, ?_⟩ <;> decide

/-- C10: the camera preset buttons and the screen-space annotation (with
its prerender and resize subscriptions) exist exactly when the editor is
constructed with viewerOnly = true; with viewerOnly false or absent none
are created and the annotation updater is never subscribed. -/
theorem buildEditorUI_viewerOnly (options : EditorUIOptions) :
    (options.viewerOnly = some true →
      (buildEditorUI options).cameraPresetButtons = ["Image 1", "Image 2", "Image 3"] ∧
      (buildEditorUI options).noteCreated = true ∧
      (buildEditorUI options).notePrerenderSubscribed = true ∧
      (buildEditorUI options).noteResizeSubscribed = true) ∧
    (options.viewerOnly ≠ some true →
      (buildEditorUI options).cameraPresetButtons = [] ∧
      (buildEditorUI options).noteCreated = false ∧
      (buildEditorUI options).notePrerenderSubscribed = false ∧
      (buildEditorUI options).noteResizeSubscribed = false) := by
  obtain ⟨vo⟩ := options
  rcases vo with _ | b
  · exact ⟨fun h => by simp at h, fun _ => by decide⟩
  · cases b
    · exact ⟨fun h => by simp at h, fun _ => by decide⟩
    · exact ⟨fun _ => by decide, fun h => by simp at h⟩

/-- C10 (witness): construction with viewerOnly = true creates the three
preset buttons. -/
theorem buildEditorUI_viewerOnly_witness :
    (buildEditorUI { viewerOnly := some true }).cameraPresetButtons =
      ["Image 1", "Image 2", "Image 3"] :=
  ((buildEditorUI_viewerOnly { viewerOnly := some true }).1 rfl).1
